import Mathlib

/-!
Verification of the candidate-signature extraction engine of
`neptune/ExtractSignatures.py`.

The scanner (`extract` and its per-window step), the k-mer classifier
(`buildKMers`) and the parameter estimators (`calculateProbHBMM`,
`calculateProbHBM`, `calculateProbHKM`, `estimateSignatureSize`,
`estimateGapSize`, `estimateExclusionHits`, `estimateInclusionHits`) are
embedded shallowly: Python strings become `List Char`, Python ints become
`ℤ`, Python floats become `ℝ`, dictionaries become update functions, and
fallible code (a Python `raise`, including `ValueError` coming out of
`math.sqrt` on a negative argument) returns `Except String`.
-/

namespace Neptune

/-- Modelled from the spec: `reverseComplement` lives in the collaborator
module `Utility`, whose source is not available here.  Per the spec's
glossary, the reverse complement is "the nucleotide sequence obtained by
reversing a strand and substituting each base with its Watson-Crick
pair". -/
def complementBase (c : Char) : Char :=
  if c = 'A' then 'T'
  else if c = 'T' then 'A'
  else if c = 'C' then 'G'
  else if c = 'G' then 'C'
  else c

/-- Modelled from the spec: reverse the strand, complement each base. -/
def reverseComplement (l : List Char) : List Char :=
  l.reverse.map complementBase

/-- Python `str.strip()` as used in `extract`'s loop bound
(`len(ref.strip())`): drop whitespace from both ends. -/
def stripChars (l : List Char) : List Char :=
  ((l.dropWhile Char.isWhitespace).reverse.dropWhile Char.isWhitespace).reverse

/-- Python slicing `l[a:b]` for integer indices, as used by
`ref[i:i + k]` and `ref[start:end]` in `extract`: negative indices count
from the end, and both bounds are clamped to the list. -/
def pySlice (l : List Char) (a b : ℤ) : List Char :=
  let n : ℤ := l.length
  let a2 : ℤ := if a < 0 then max 0 (n + a) else a
  let b2 : ℤ := if b < 0 then max 0 (n + b) else b
  (l.take b2.toNat).drop a2.toNat

/-- The `Region` class of `ExtractSignatures.py`: an extracted
subsequence, the name of its source reference, and its start offset. -/
structure Region where
  sequence : List Char
  reference : String
  position : ℤ
deriving DecidableEq

/-- The mutable scanner state of `extract`'s inner loop: the sentinel
positions `start` and `end` (Python initialises both to `-1`; `end` is a
keyword in Lean, so the field is called `stop`) and the accumulated
regions list. -/
structure ScanState where
  start : ℤ
  stop : ℤ
  regions : List Region
deriving DecidableEq

/-- The region-closing step of `extract` (source lines 224-226 and
250-252): emit `Region(ref[start:end], key, start)` when the measured
span `end - start` meets the minimum signature size. -/
def emitIfFits (size : ℤ) (key : String) (ref : List Char) (s : ScanState) : List Region :=
  if size ≤ s.stop - s.start then
    s.regions ++ [⟨pySlice ref s.start s.stop, key, s.start⟩]
  else s.regions

/-- The inclusion branch of `extract`'s inner loop (source lines
234-255): possibly open a new chain, then either extend the chain when
the gap is tolerable or close it and start a new chain anchored at the
current window. -/
def processInclusion (k : ℕ) (size gap : ℤ) (key : String) (ref : List Char)
    (i : ℕ) (s : ScanState) : ScanState :=
  let s1 : ScanState := if s.start < 0 ∧ s.stop < 0 then
      ⟨(i : ℤ) + k - 1, (i : ℤ) + 1, s.regions⟩
    else s
  if 0 ≤ s1.start ∧ 0 ≤ s1.stop then
    if (i : ℤ) - (s1.stop + 1) ≤ gap then ⟨s1.start, (i : ℤ) + 1, s1.regions⟩
    else ⟨(i : ℤ) + k - 1, (i : ℤ) + 1, emitIfFits size key ref s1⟩
  else s1

/-- One iteration of `extract`'s inner loop at window position `i`
(source lines 214-255): exclusion evidence closes and resets the chain;
otherwise inclusion evidence builds the chain; otherwise nothing
happens. -/
def processWindow (k : ℕ) (inmers exmers : List (List Char)) (size gap : ℤ)
    (key : String) (ref : List Char) (i : ℕ) (s : ScanState) : ScanState :=
  if (ref.drop i).take k ∈ exmers ∨ reverseComplement ((ref.drop i).take k) ∈ exmers then
    { start := -1, stop := -1, regions := emitIfFits size key ref s }
  else if (ref.drop i).take k ∈ inmers ∨ reverseComplement ((ref.drop i).take k) ∈ inmers then
    processInclusion k size gap key ref i s
  else s

/-- One full scan of a reference (the body of `extract`'s outer loop,
source lines 204-259): run the window loop over every k-mer position and
close a still-open chain at the end of the sequence. -/
def scanReference (k : ℕ) (inmers exmers : List (List Char)) (size gap : ℤ)
    (key : String) (ref : List Char) (regions0 : List Region) : List Region :=
  let steps := (stripChars ref).length + 1 - k
  let final := (List.range steps).foldl
    (fun s i => processWindow k inmers exmers size gap key ref i s)
    { start := -1, stop := -1, regions := regions0 }
  if 0 ≤ final.start ∧ 0 < final.stop ∧ size ≤ final.stop - final.start then
    final.regions ++ [⟨pySlice ref final.start final.stop, key, final.start⟩]
  else final.regions

/-- The `extract` function of `ExtractSignatures.py`, up to the point
where the collected regions are rendered as signatures: validate the
inputs, then scan every reference in order, accumulating candidate
regions across references. -/
def extract (references : List (String × List Char)) (k : ℤ)
    (inmers exmers : List (List Char)) (size gap : ℤ) : Except String (List Region) :=
  if references.length < 1 then Except.error "There are no references."
  else if k < 1 then Except.error "The k-mer size is out of range."
  else if inmers.length < 1 then Except.error "There are no inclusion k-mers."
  else if size < 1 then Except.error "The signature size is out of range."
  else if gap < 1 then Except.error "The gap size is out of range."
  else Except.ok (references.foldl
    (fun regs kr => scanReference k.toNat inmers exmers size gap kr.1 kr.2 regs) [])

/-! ### Parameter estimators (floats embedded as `ℝ`) -/

/-- The arithmetic of `calculateProbHBMM` (source lines 298-302): the
probability that two homologous bases both mutate to the same base in a
GC-content environment. -/
noncomputable def probHBMMval (GC : ℝ) : ℝ :=
  (2 * (GC / (GC + 1)) ^ 2 + ((1 - GC) / (GC + 1)) ^ 2) * (1 - GC) +
    (2 * ((1 - GC) / (2 - GC)) ^ 2 + (GC / (2 - GC)) ^ 2) * GC

/-- `calculateProbHBMM` with its domain check (source lines 289-304). -/
noncomputable def calculateProbHBMM (GC : ℝ) : Except String ℝ :=
  if GC < 0 ∨ 1 < GC then Except.error "The GC-content is out of range."
  else Except.ok (probHBMMval GC)

/-- The arithmetic of `calculateProbHBM` (source line 344):
`(1 - M) * (1 - M) + M * M * probHBMM`. -/
noncomputable def probHBMval (M GC : ℝ) : ℝ :=
  (1 - M) * (1 - M) + M * M * probHBMMval GC

/-- `calculateProbHBM` with its domain checks (source lines 328-346). -/
noncomputable def calculateProbHBM (M GC : ℝ) : Except String ℝ :=
  if M < 0 ∨ 1 < M then Except.error "The mutationRate is out of range."
  else if GC < 0 ∨ 1 < GC then Except.error "The GC-content is out of range."
  else Except.ok (probHBMval M GC)

/-- The arithmetic of `calculateProbHKM` (source line 389):
`math.pow(probHBM, kmerSize)`, a real power. -/
noncomputable def probHKMval (M GC : ℝ) (k : ℤ) : ℝ :=
  Real.rpow (probHBMval M GC) (k : ℝ)

/-- `calculateProbHKM` with its domain checks (source lines 371-391). -/
noncomputable def calculateProbHKM (M GC : ℝ) (kmerSize : ℤ) : Except String ℝ :=
  if M < 0 ∨ 1 < M then Except.error "The mutationRate is out of range."
  else if GC < 0 ∨ 1 < GC then Except.error "The GC-content is out of range."
  else if kmerSize < 1 then Except.error "The k-mer size is out of range."
  else Except.ok (probHKMval M GC kmerSize)

/-- `estimateSignatureSize` (source lines 409-415): `int(4.0 * k)`,
with NO domain validation at all. -/
def estimateSignatureSize (kmerSize : ℤ) : ℤ :=
  4 * kmerSize

/-- The `mean` computed inside `estimateGapSize` (source line 462),
Feller's recurrence-time mean `(1 - p^k) / (q * p^k)`. -/
noncomputable def gapMean (M GC : ℝ) (k : ℤ) : ℝ :=
  (1 - Real.rpow (probHBMval M GC) (k : ℝ)) /
    ((1 - probHBMval M GC) * Real.rpow (probHBMval M GC) (k : ℝ))

/-- The `variance` computed inside `estimateGapSize` (source lines
463-464): `1/(q*p^k)^2 - (2k+1)/(q*p^k) - p/q^2`. -/
noncomputable def gapVariance (M GC : ℝ) (k : ℤ) : ℝ :=
  1 / ((1 - probHBMval M GC) * Real.rpow (probHBMval M GC) (k : ℝ)) ^ 2 -
    (2 * (k : ℝ) + 1) / ((1 - probHBMval M GC) * Real.rpow (probHBMval M GC) (k : ℝ)) -
    probHBMval M GC / (1 - probHBMval M GC) ^ 2

/-- `estimateGapSize` (source lines 438-471).  Python's
`math.sqrt(variance)` raises `ValueError("math domain error")` on a
negative argument, which is the error branch after the domain checks. -/
noncomputable def estimateGapSize (M GC : ℝ) (kmerSize : ℤ) (confidence : ℝ) :
    Except String ℤ :=
  if M < 0 ∨ 1 < M then Except.error "The mutationRate is out of range."
  else if GC < 0 ∨ 1 < GC then Except.error "The GC-content is out of range."
  else if kmerSize < 1 then Except.error "The k-mer size is out of range."
  else if confidence ≤ 0 ∨ 1 ≤ confidence then
    Except.error "The statistical confidence is out of range."
  else if gapVariance M GC kmerSize < 0 then Except.error "math domain error"
  else Except.ok (Int.ceil (gapMean M GC kmerSize +
    Real.sqrt (1 / (1 - confidence)) * Real.sqrt (gapVariance M GC kmerSize)))

/-- `estimateExclusionHits` (source lines 494-498): a stub that returns
the constant `1.0` and ignores every input; it performs NO
validation. -/
noncomputable def estimateExclusionHits (totalExclusion : ℤ) (rate : ℝ)
    (kmerSize : ℤ) : ℝ :=
  1

/-- Modelled from the spec: `scipy.stats.norm.ppf`, the inverse
standard-normal CDF used by `estimateInclusionHits`, is an external
library function whose source is not available here; the spec describes
it as "the inverse standard-normal CDF at `confidence`".  The CDF of
the standard normal distribution. -/
noncomputable def stdNormalCDF (x : ℝ) : ℝ :=
  (∫ t in Set.Iic x, Real.exp (-(t ^ 2) / 2)) / Real.sqrt (2 * Real.pi)

/-- Modelled from the spec: the inverse of `stdNormalCDF`
(`scipy.stats.norm.ppf`). -/
noncomputable def normPPF (c : ℝ) : ℝ :=
  sInf {x : ℝ | c ≤ stdNormalCDF x}

/-- The binomial `variance` computed inside `estimateInclusionHits`
(source line 550): `(N - 1) * p * q`. -/
noncomputable def inclVariance (totalInclusion : ℤ) (M GC : ℝ) (k : ℤ) : ℝ :=
  ((totalInclusion : ℝ) - 1) * probHKMval M GC k * (1 - probHKMval M GC k)

/-- `estimateInclusionHits` (source lines 523-556).  As in
`estimateGapSize`, `math.sqrt` of a negative variance raises
`ValueError("math domain error")`. -/
noncomputable def estimateInclusionHits (totalInclusion : ℤ) (M GC : ℝ)
    (kmerSize : ℤ) (confidence : ℝ) : Except String ℝ :=
  if M < 0 ∨ 1 < M then Except.error "The mutationRate is out of range."
  else if GC < 0 ∨ 1 < GC then Except.error "The GC-content is out of range."
  else if kmerSize < 1 then Except.error "The k-mer size is out of range."
  else if confidence ≤ 0 ∨ 1 ≤ confidence then
    Except.error "The statistical confidence is out of range."
  else if inclVariance totalInclusion M GC kmerSize < 0 then
    Except.error "math domain error"
  else Except.ok (max 0 ((Int.floor (1 + ((totalInclusion : ℝ) - 1) * probHKMval M GC kmerSize -
    normPPF confidence * Real.sqrt (inclVariance totalInclusion M GC kmerSize)) : ℤ) : ℝ))

/-! ### Spec-side formulas for the gap estimator (refinement target) -/

/-- The spec's formula `f(GC)` for `probHomologousBaseMutateMatch`. -/
noncomputable def specProbHBMM (GC : ℝ) : ℝ :=
  (2 * (GC / (GC + 1)) ^ 2 + ((1 - GC) / (GC + 1)) ^ 2) * (1 - GC) +
    (2 * ((1 - GC) / (2 - GC)) ^ 2 + (GC / (2 - GC)) ^ 2) * GC

/-- The spec's formula `(1-M)^2 + M^2 * f(GC)` for
`probHomologousBaseMatch`. -/
noncomputable def specProbHBM (M GC : ℝ) : ℝ :=
  (1 - M) ^ 2 + M ^ 2 * specProbHBMM GC

/-- The spec's description of the gap estimate, written independently
from the spec's own words: `p = probHomologousBaseMatch(M, GC)`,
`q = 1 - p`, `mean = (1-p^k)/(q*p^k)`,
`variance = 1/(q*p^k)^2 - (2k+1)/(q*p^k) - p/q^2`,
`deviations = sqrt(1/(1-confidence))`, result
`ceil(mean + deviations * stdev)`; here `p^k` is an ordinary `k`-fold
power, `k ≥ 1` being an integer. -/
noncomputable def specGapSize (M GC : ℝ) (k : ℤ) (c : ℝ) : ℤ :=
  Int.ceil ((1 - specProbHBM M GC ^ k.toNat) /
      ((1 - specProbHBM M GC) * specProbHBM M GC ^ k.toNat) +
    Real.sqrt (1 / (1 - c)) *
      Real.sqrt (1 / ((1 - specProbHBM M GC) * specProbHBM M GC ^ k.toNat) ^ 2 -
        (2 * (k : ℝ) + 1) / ((1 - specProbHBM M GC) * specProbHBM M GC ^ k.toNat) -
        specProbHBM M GC / (1 - specProbHBM M GC) ^ 2))

/-! ### The k-mer classifier -/

/-- A Python dictionary update `d[km] = v`, for dictionaries embedded
as partial functions. -/
def updateDict (d : String → Option ℤ) (km : String) (v : ℤ) : String → Option ℤ :=
  fun x => if x = km then some v else d x

/-- The loop of `buildKMers` (source lines 610-624), processing parsed
table lines `(kmer, inclusionCount, exclusionCount)` in order against
the dictionaries accumulated so far. -/
def buildKMersAux (inhits exhits : ℚ) : List (String × ℤ × ℤ) →
    (String → Option ℤ) → (String → Option ℤ) →
    ((String → Option ℤ) × (String → Option ℤ))
  | [], inm, exm => (inm, exm)
  | (km, ic, ec) :: rest, inm, exm =>
    buildKMersAux inhits exhits rest
      (if inhits ≤ (ic : ℚ) then updateDict inm km ic else inm)
      (if exhits ≤ (ec : ℚ) then updateDict exm km ec else exm)

/-- `buildKMers` of `ExtractSignatures.py`: fill the inclusion and
exclusion dictionaries (starting empty, as in `parse`) from the
aggregated k-mer table and the two hit thresholds. -/
def buildKMers (table : List (String × ℤ × ℤ)) (inhits exhits : ℚ) :
    ((String → Option ℤ) × (String → Option ℤ)) :=
  buildKMersAux inhits exhits table (fun _ => none) (fun _ => none)

/-! ### Scanner invariants -/

/-- A region that the scanner can emit while scanning reference
`(key, ref)`: a slice `ref[a:b]` with `a ≥ 0`, `b` within the
reference, and measured span at least `size`. -/
def EmittedFrom (size : ℤ) (key : String) (ref : List Char) (r : Region) : Prop :=
  ∃ a b : ℤ, 0 ≤ a ∧ b ≤ (ref.length : ℤ) ∧ size ≤ b - a ∧
    r = ⟨pySlice ref a b, key, a⟩

/-- The scanner state is either idle (both sentinels `-1`) or carries an
anchor `start ≥ 0` and a cursor `1 ≤ stop ≤ length ref`. -/
def StateOK (ref : List Char) (s : ScanState) : Prop :=
  (s.start = -1 ∧ s.stop = -1) ∨
    (0 ≤ s.start ∧ 1 ≤ s.stop ∧ s.stop ≤ (ref.length : ℤ))

theorem stripChars_length_le (l : List Char) : (stripChars l).length ≤ l.length := by
  have hdw : ∀ (p : Char → Bool) (m : List Char), (m.dropWhile p).length ≤ m.length := by
    intro p m
    induction m with
    | nil => simp
    | cons a t ih =>
      by_cases h : p a
      · rw [List.dropWhile_cons_of_pos h]; exact Nat.le_succ_of_le ih
      · rw [List.dropWhile_cons_of_neg h]
  unfold stripChars
  calc (((l.dropWhile Char.isWhitespace).reverse.dropWhile Char.isWhitespace).reverse).length
      = ((l.dropWhile Char.isWhitespace).reverse.dropWhile Char.isWhitespace).length := by
        rw [List.length_reverse]
    _ ≤ (l.dropWhile Char.isWhitespace).reverse.length := hdw _ _
    _ = (l.dropWhile Char.isWhitespace).length := by rw [List.length_reverse]
    _ ≤ l.length := hdw _ _

theorem pySlice_length (l : List Char) (a b : ℤ) (ha : 0 ≤ a) (hb : 0 ≤ b)
    (hbl : b ≤ (l.length : ℤ)) : (pySlice l a b).length = b.toNat - a.toNat := by
  simp only [pySlice]
  rw [if_neg (not_lt.mpr ha), if_neg (not_lt.mpr hb)]
  rw [List.length_drop, List.length_take]
  omega

theorem emitIfFits_shape (size : ℤ) (hsize : 1 ≤ size) (key : String)
    (ref : List Char) (s : ScanState) (hs : StateOK ref s) :
    ∀ r ∈ emitIfFits size key ref s, r ∈ s.regions ∨ EmittedFrom size key ref r := by
  intro r hr
  unfold emitIfFits at hr
  split_ifs at hr with h
  · rcases List.mem_append.mp hr with h1 | h2
    · exact Or.inl h1
    · right
      have hrq : r = (⟨pySlice ref s.start s.stop, key, s.start⟩ : Region) :=
        List.mem_singleton.mp h2
      rcases hs with ⟨h1', h2'⟩ | ⟨h0, h1', h2'⟩
      · exfalso; rw [h1', h2'] at h; omega
      · exact ⟨s.start, s.stop, h0, h2', h, hrq⟩
  · exact Or.inl hr

theorem processInclusion_shape (k : ℕ) (hk : 1 ≤ k) (size gap : ℤ) (hsize : 1 ≤ size)
    (key : String) (ref : List Char) (i : ℕ) (hi : (i : ℤ) + 1 ≤ (ref.length : ℤ))
    (s : ScanState) (hs : StateOK ref s) :
    StateOK ref (processInclusion k size gap key ref i s) ∧
    ∀ r ∈ (processInclusion k size gap key ref i s).regions,
      r ∈ s.regions ∨ EmittedFrom size key ref r := by
  have hbuild : StateOK ref (⟨(i : ℤ) + k - 1, (i : ℤ) + 1, s.regions⟩ : ScanState) := by
    refine Or.inr ⟨?_, ?_, ?_⟩ <;> dsimp only <;> omega
  unfold processInclusion
  by_cases hnew : s.start < 0 ∧ s.stop < 0
  · simp only [if_pos hnew]
    split_ifs with hpos hgap
    · refine ⟨Or.inr ⟨?_, ?_, ?_⟩, fun r hr => Or.inl hr⟩ <;> dsimp only <;> omega
    · refine ⟨Or.inr ⟨?_, ?_, ?_⟩, ?_⟩
      · dsimp only; omega
      · dsimp only; omega
      · dsimp only; omega
      · exact fun r hr => emitIfFits_shape size hsize key ref _ hbuild r hr
    · exact ⟨hbuild, fun r hr => Or.inl hr⟩
  · simp only [if_neg hnew]
    split_ifs with hpos hgap
    · refine ⟨Or.inr ⟨?_, ?_, ?_⟩, fun r hr => Or.inl hr⟩ <;> dsimp only
      · exact hpos.1
      · omega
      · exact hi
    · refine ⟨Or.inr ⟨?_, ?_, ?_⟩, ?_⟩
      · dsimp only; omega
      · dsimp only; omega
      · dsimp only; omega
      · exact fun r hr => emitIfFits_shape size hsize key ref s hs r hr
    · exact ⟨hs, fun r hr => Or.inl hr⟩

theorem processWindow_shape (k : ℕ) (hk : 1 ≤ k) (inmers exmers : List (List Char))
    (size gap : ℤ) (hsize : 1 ≤ size) (key : String) (ref : List Char) (i : ℕ)
    (hi : (i : ℤ) + 1 ≤ (ref.length : ℤ)) (s : ScanState) (hs : StateOK ref s) :
    StateOK ref (processWindow k inmers exmers size gap key ref i s) ∧
    ∀ r ∈ (processWindow k inmers exmers size gap key ref i s).regions,
      r ∈ s.regions ∨ EmittedFrom size key ref r := by
  unfold processWindow
  split_ifs with hex hin
  · exact ⟨Or.inl ⟨rfl, rfl⟩, fun r hr => emitIfFits_shape size hsize key ref s hs r hr⟩
  · exact processInclusion_shape k hk size gap hsize key ref i hi s hs
  · exact ⟨hs, fun r hr => Or.inl hr⟩

theorem foldWindows_shape (k : ℕ) (hk : 1 ≤ k) (inmers exmers : List (List Char))
    (size gap : ℤ) (hsize : 1 ≤ size) (key : String) (ref : List Char) :
    ∀ (l : List ℕ), (∀ i ∈ l, (i : ℤ) + 1 ≤ (ref.length : ℤ)) →
    ∀ (s : ScanState), StateOK ref s →
    StateOK ref (l.foldl (fun s i => processWindow k inmers exmers size gap key ref i s) s) ∧
    ∀ r ∈ (l.foldl (fun s i => processWindow k inmers exmers size gap key ref i s) s).regions,
      r ∈ s.regions ∨ EmittedFrom size key ref r := by
  intro l
  induction l with
  | nil => exact fun _ s hs => ⟨hs, fun r hr => Or.inl hr⟩
  | cons a t ih =>
    intro hl s hs
    rw [List.foldl_cons]
    have h1 := processWindow_shape k hk inmers exmers size gap hsize key ref a
      (hl a (List.mem_cons_self a t)) s hs
    have h2 := ih (fun i hi => hl i (List.mem_cons_of_mem a hi)) _ h1.1
    refine ⟨h2.1, fun r hr => ?_⟩
    rcases h2.2 r hr with h | h
    · exact h1.2 r h
    · exact Or.inr h

theorem scanReference_shape (k : ℕ) (hk : 1 ≤ k) (inmers exmers : List (List Char))
    (size gap : ℤ) (hsize : 1 ≤ size) (key : String) (ref : List Char)
    (regions0 : List Region) :
    ∀ r ∈ scanReference k inmers exmers size gap key ref regions0,
      r ∈ regions0 ∨ EmittedFrom size key ref r := by
  intro r hr
  have hmem : ∀ i ∈ List.range ((stripChars ref).length + 1 - k),
      (i : ℤ) + 1 ≤ (ref.length : ℤ) := by
    intro i hi
    have h1 : i < (stripChars ref).length + 1 - k := List.mem_range.mp hi
    have h2 : (stripChars ref).length ≤ ref.length := stripChars_length_le ref
    omega
  have hfold := foldWindows_shape k hk inmers exmers size gap hsize key ref
    (List.range ((stripChars ref).length + 1 - k)) hmem
    ⟨-1, -1, regions0⟩ (Or.inl ⟨rfl, rfl⟩)
  simp only [scanReference] at hr
  split_ifs at hr with hfin
  · rcases List.mem_append.mp hr with h1 | h2
    · exact hfold.2 r h1
    · right
      have hrq := List.mem_singleton.mp h2
      obtain ⟨hst0, hstp, hsz⟩ := hfin
      rcases hfold.1 with ⟨e1, _⟩ | ⟨_, _, g2⟩
      · exfalso; rw [e1] at hst0; omega
      · exact ⟨_, _, hst0, g2, hsz, hrq⟩
  · exact hfold.2 r hr

theorem extract_shape (references : List (String × List Char)) (k : ℤ)
    (inmers exmers : List (List Char)) (size gap : ℤ) (regs : List Region)
    (h : extract references k inmers exmers size gap = Except.ok regs) :
    (1 ≤ k ∧ 1 ≤ size ∧ 1 ≤ gap) ∧
    ∀ r ∈ regs, ∃ p ∈ references, EmittedFrom size p.1 p.2 r := by
  unfold extract at h
  split_ifs at h with h1 h2 h3 h4 h5
  have hk : 1 ≤ k := by omega
  have hsize : 1 ≤ size := by omega
  have hgap : 1 ≤ gap := by omega
  have hknat : 1 ≤ k.toNat := by omega
  have hregs := (Except.ok.inj h).symm
  subst hregs
  refine ⟨⟨hk, hsize, hgap⟩, ?_⟩
  have main : ∀ (l : List (String × List Char)) (acc : List Region),
      (∀ p ∈ l, p ∈ references) →
      (∀ r ∈ acc, ∃ p ∈ references, EmittedFrom size p.1 p.2 r) →
      ∀ r ∈ l.foldl
        (fun regs kr => scanReference k.toNat inmers exmers size gap kr.1 kr.2 regs) acc,
        ∃ p ∈ references, EmittedFrom size p.1 p.2 r := by
    intro l
    induction l with
    | nil => exact fun acc _ hacc r hr => hacc r hr
    | cons a t ih =>
      intro acc hl hacc r hr
      rw [List.foldl_cons] at hr
      refine ih _ (fun p hp => hl p (List.mem_cons_of_mem a hp)) ?_ r hr
      intro r2 hr2
      rcases scanReference_shape k.toNat hknat inmers exmers size gap hsize a.1 a.2 acc
        r2 hr2 with h' | h'
      · exact hacc r2 h'
      · exact ⟨a, hl a (List.mem_cons_self a t), h'⟩
  exact main references [] (fun p hp => hp) (by simp)

/-! ### Claims about the scanner -/

/-- C1: the spec's concrete scenario — reference `"AAAAACCCCC"`, k = 5,
InclusionSet = {"AAAAA"}, ExclusionSet = {}, maxGap = 1,
minRegionSize = 1 — is claimed to yield exactly one candidate region.
Evaluating the code at exactly this input shows it emits NO region at
all: the chain bookkeeping sets `start = i + k - 1 = 4` and
`end = i + 1 = 1` at the single matching window, so the measured span is
`-3 < 1` and the candidate is dropped. -/
theorem extract_concrete_scenario_no_region :
    extract [("ref", "AAAAACCCCC".toList)] 5 ["AAAAA".toList] [] 1 1 =
      Except.ok [] := by
  rfl

/-- C2: on every successful run of `extract`, every emitted
`CandidateRegion` has an extracted subsequence of length at least the
minimum signature size, no matter whether the chain was closed by an
exclusion hit, by an over-large gap, or at the end of the sequence. -/
theorem extract_regions_meet_min_size (references : List (String × List Char))
    (k : ℤ) (inmers exmers : List (List Char)) (size gap : ℤ) (regs : List Region)
    (h : extract references k inmers exmers size gap = Except.ok regs)
    (r : Region) (hr : r ∈ regs) : size ≤ (r.sequence.length : ℤ) := by
  obtain ⟨⟨hk, hsize, hgap⟩, hall⟩ :=
    extract_shape references k inmers exmers size gap regs h
  obtain ⟨p, hp, a, b, ha, hb, hsz, hreq⟩ := hall r hr
  have hab : 0 ≤ b := by omega
  rw [hreq]
  dsimp only
  rw [pySlice_length p.2 a b ha hab hb]
  omega

/-- Witness for C2: a concrete run that emits one region of length 1
with minimum size 1. -/
theorem extract_regions_meet_min_size_witness :
    extract [("r", ['A'])] 1 [['A']] [] 1 1 = Except.ok [⟨['A'], "r", 0⟩] ∧
    (⟨['A'], "r", 0⟩ : Region) ∈ [(⟨['A'], "r", 0⟩ : Region)] ∧
    (1 : ℤ) ≤ (((⟨['A'], "r", 0⟩ : Region)).sequence.length : ℤ) := by
  have h : extract [("r", ['A'])] 1 [['A']] [] 1 1 = Except.ok [⟨['A'], "r", 0⟩] := by rfl
  exact ⟨h, List.mem_singleton.mpr rfl,
    extract_regions_meet_min_size [("r", ['A'])] 1 [['A']] [] 1 1
      [⟨['A'], "r", 0⟩] h ⟨['A'], "r", 0⟩ (List.mem_singleton.mpr rfl)⟩

/-- C3: at any window position whose forward k-mer or reverse complement
is in the exclusion set — no assumption is made about the inclusion set,
so in particular this covers a k-mer that is simultaneously
inclusion-supported — the scanner never extends the open chain: it
closes it (emitting a region exactly when the measured span meets the
minimum size, which is what `emitIfFits` does) and unconditionally
resets both sentinels to `-1` (the Idle state). -/
theorem processWindow_exclusion_resets (k : ℕ) (inmers exmers : List (List Char))
    (size gap : ℤ) (key : String) (ref : List Char) (i : ℕ) (s : ScanState)
    (hex : (ref.drop i).take k ∈ exmers ∨
      reverseComplement ((ref.drop i).take k) ∈ exmers) :
    processWindow k inmers exmers size gap key ref i s =
      ⟨-1, -1, emitIfFits size key ref s⟩ := by
  unfold processWindow
  rw [if_pos hex]

/-- Witness for C3: a concrete window whose k-mer is in BOTH the
inclusion and the exclusion set; the open chain (anchor 0, cursor 3) is
closed, its region is emitted, and the state resets to Idle. -/
theorem processWindow_exclusion_resets_witness :
    ((((['A'] : List Char).drop 0).take 1) ∈ ([['A']] : List (List Char)) ∨
      reverseComplement (((['A'] : List Char).drop 0).take 1) ∈ ([['A']] : List (List Char))) ∧
    processWindow 1 [['A']] [['A']] 1 1 "r" ['A'] 0 ⟨0, 3, []⟩ =
      ⟨-1, -1, [⟨['A'], "r", 0⟩]⟩ := by
  refine ⟨Or.inl (by decide), ?_⟩
  rw [processWindow_exclusion_resets 1 [['A']] [['A']] 1 1 "r" ['A'] 0 ⟨0, 3, []⟩
    (Or.inl (by decide))]
  rfl

theorem lookup_eq_of_mem_of_nodup :
    ∀ (l : List (String × List Char)) (p : String × List Char),
    p ∈ l → (l.map Prod.fst).Nodup → l.lookup p.1 = some p.2 := by
  intro l
  induction l with
  | nil => intro p hp; cases hp
  | cons q t ih =>
    obtain ⟨qk, qv⟩ := q
    intro p hp hnd
    rcases List.mem_cons.mp hp with rfl | hp2
    · simp [List.lookup]
    · have hnd2 : (t.map Prod.fst).Nodup := (List.nodup_cons.mp hnd).2
      have hne : p.1 ≠ qk := by
        intro he
        have hmm : p.1 ∈ t.map Prod.fst := List.mem_map_of_mem Prod.fst hp2
        rw [he] at hmm
        exact (List.nodup_cons.mp hnd).1 hmm
      have hbe : (p.1 == qk) = false := beq_eq_false_iff_ne.mpr hne
      simpa [List.lookup, hbe] using ih p hp2 hnd2

/-- C10: every emitted `CandidateRegion` is internally consistent: its
stored sequence equals the slice of its source reference that starts at
its stored position and extends for the length of the sequence
(`region.sequence = ref[region.position : region.position + len]`),
where `ref` is the reference named by `region.reference`. -/
theorem extract_region_slice_consistent (references : List (String × List Char))
    (k : ℤ) (inmers exmers : List (List Char)) (size gap : ℤ) (regs : List Region)
    (hnd : (references.map Prod.fst).Nodup)
    (h : extract references k inmers exmers size gap = Except.ok regs)
    (r : Region) (hr : r ∈ regs) (ref : List Char)
    (hl : references.lookup r.reference = some ref) :
    r.sequence = pySlice ref r.position (r.position + (r.sequence.length : ℤ)) := by
  obtain ⟨⟨hk, hsize, hgap⟩, hall⟩ :=
    extract_shape references k inmers exmers size gap regs h
  obtain ⟨p, hp, a, b, ha, hb, hsz, hreq⟩ := hall r hr
  have hlook := lookup_eq_of_mem_of_nodup references p hp hnd
  rw [hreq] at hl ⊢
  dsimp only at hl ⊢
  rw [hlook] at hl
  have href : ref = p.2 := (Option.some.inj hl).symm
  subst href
  have hab : 0 ≤ b := by omega
  rw [pySlice_length p.2 a b ha hab hb]
  have hba : a + ((b.toNat - a.toNat : ℕ) : ℤ) = b := by omega
  rw [hba]

/-- Witness for C10: the concrete single-region run, checked against the
named reference. -/
theorem extract_region_slice_consistent_witness :
    (([("r", ['A'])] : List (String × List Char)).map Prod.fst).Nodup ∧
    extract [("r", ['A'])] 1 [['A']] [] 1 1 = Except.ok [⟨['A'], "r", 0⟩] ∧
    (⟨['A'], "r", 0⟩ : Region) ∈ [(⟨['A'], "r", 0⟩ : Region)] ∧
    ([("r", ['A'])] : List (String × List Char)).lookup
      (⟨['A'], "r", 0⟩ : Region).reference = some ['A'] ∧
    (⟨['A'], "r", 0⟩ : Region).sequence =
      pySlice ['A'] (⟨['A'], "r", 0⟩ : Region).position
        ((⟨['A'], "r", 0⟩ : Region).position +
          ((⟨['A'], "r", 0⟩ : Region).sequence.length : ℤ)) := by
  have h : extract [("r", ['A'])] 1 [['A']] [] 1 1 = Except.ok [⟨['A'], "r", 0⟩] := by rfl
  have hnd : (([("r", ['A'])] : List (String × List Char)).map Prod.fst).Nodup := by decide
  have hl : ([("r", ['A'])] : List (String × List Char)).lookup
      (⟨['A'], "r", 0⟩ : Region).reference = some ['A'] := by rfl
  exact ⟨hnd, h, List.mem_singleton.mpr rfl, hl,
    extract_region_slice_consistent [("r", ['A'])] 1 [['A']] [] 1 1
      [⟨['A'], "r", 0⟩] hnd h ⟨['A'], "r", 0⟩ (List.mem_singleton.mpr rfl) ['A'] hl⟩

/-! ### Claims about the parameter estimators -/

theorem probHBMval_eq_spec (M GC : ℝ) : probHBMval M GC = specProbHBM M GC := by
  unfold probHBMval specProbHBM probHBMMval specProbHBMM
  ring

theorem rpow_int_toNat (p : ℝ) (k : ℤ) (hk : 1 ≤ k) :
    Real.rpow p (k : ℝ) = p ^ k.toNat := by
  have h1 : ((k.toNat : ℕ) : ℝ) = (k : ℝ) := by
    exact_mod_cast Int.toNat_of_nonneg (by omega)
  rw [← h1]
  exact Real.rpow_natCast p k.toNat

/-- C4: for in-domain inputs with non-negative variance,
`estimateGapSize` returns exactly the spec's closed-form value
`ceil(mean + sqrt(1/(1-confidence)) * sqrt(variance))` with
`p = probHomologousBaseMatch(M, GC)`, `q = 1-p`,
`mean = (1-p^k)/(q*p^k)` and
`variance = 1/(q*p^k)^2 - (2k+1)/(q*p^k) - p/q^2`. -/
theorem estimateGapSize_matches_spec_formula (M GC : ℝ) (k : ℤ) (c : ℝ)
    (hM0 : 0 ≤ M) (hM1 : M ≤ 1) (hGC0 : 0 ≤ GC) (hGC1 : GC ≤ 1) (hk : 1 ≤ k)
    (hc0 : 0 < c) (hc1 : c < 1) (hvar : 0 ≤ gapVariance M GC k) :
    estimateGapSize M GC k c = Except.ok (specGapSize M GC k c) := by
  unfold estimateGapSize
  rw [if_neg (by push_neg; exact ⟨hM0, hM1⟩), if_neg (by push_neg; exact ⟨hGC0, hGC1⟩),
    if_neg (not_lt.mpr hk), if_neg (by push_neg; exact ⟨hc0, hc1⟩),
    if_neg (not_lt.mpr hvar)]
  unfold gapMean gapVariance specGapSize
  rw [rpow_int_toNat (probHBMval M GC) k hk, probHBMval_eq_spec]

/-- Witness for C4 at `M = 1/2`, `GC = 1/2`, `k = 1`, `c = 3/4`, where
the variance evaluates to `6 ≥ 0`. -/
theorem estimateGapSize_matches_spec_formula_witness :
    (0 : ℝ) ≤ 1 / 2 ∧ (1 / 2 : ℝ) ≤ 1 ∧ (1 : ℤ) ≤ 1 ∧ (0 : ℝ) < 3 / 4 ∧
    (3 / 4 : ℝ) < 1 ∧ 0 ≤ gapVariance (1 / 2) (1 / 2) 1 ∧
    estimateGapSize (1 / 2) (1 / 2) 1 (3 / 4) =
      Except.ok (specGapSize (1 / 2) (1 / 2) 1 (3 / 4)) := by
  have hvar : gapVariance (1 / 2 : ℝ) (1 / 2) 1 = 6 := by
    unfold gapVariance probHBMval probHBMMval
    norm_num [Real.rpow_one]
  refine ⟨by norm_num, by norm_num, le_refl 1, by norm_num, by norm_num,
    by rw [hvar]; norm_num, ?_⟩
  exact estimateGapSize_matches_spec_formula (1 / 2) (1 / 2) 1 (3 / 4)
    (by norm_num) (by norm_num) (by norm_num) (by norm_num) (le_refl 1)
    (by norm_num) (by norm_num) (by rw [hvar]; norm_num)

/-- C8: whenever the variance formula inside `estimateGapSize` is
negative, the function never returns a gap estimate — it fails with an
error (the modelled `ValueError` of `math.sqrt`, or an earlier domain
error); nothing is clamped. -/
theorem estimateGapSize_negative_variance_errors (M GC : ℝ) (k : ℤ) (c : ℝ)
    (hvar : gapVariance M GC k < 0) :
    ∃ e, estimateGapSize M GC k c = Except.error e := by
  unfold estimateGapSize
  split_ifs with h1 h2 h3 h4 <;> exact ⟨_, rfl⟩

/-- Witness for C8: at `M = 2`, `GC = 1/2`, `k = 1` the variance
formula evaluates to `-12/49 < 0`. -/
theorem estimateGapSize_negative_variance_errors_witness :
    gapVariance 2 (1 / 2) 1 < 0 ∧
    ∃ e, estimateGapSize 2 (1 / 2) 1 (1 / 2) = Except.error e := by
  have hvar : gapVariance (2 : ℝ) (1 / 2) 1 < 0 := by
    unfold gapVariance probHBMval probHBMMval
    norm_num [Real.rpow_one]
  exact ⟨hvar, estimateGapSize_negative_variance_errors 2 (1 / 2) 1 (1 / 2) hvar⟩

/-- C5 (counterexample): the claim says EVERY estimator function
validates its numeric domain and fails on out-of-range input, but
`estimateSignatureSize` accepts the out-of-range k-mer size `0 < 1` and
returns the value `0`, and `estimateExclusionHits` accepts the
out-of-range rate `-1 < 0` (and k-mer size `0 < 1`) and returns the
value `1`. -/
theorem size_and_exclusion_estimators_skip_validation :
    estimateSignatureSize 0 = 0 ∧ estimateExclusionHits 3 (-1) 0 = 1 ∧
    (0 : ℤ) < 1 ∧ (-1 : ℝ) < 0 :=
  ⟨rfl, rfl, by norm_num, by norm_num⟩

/-- C5 (amended): the probability functions and the gap and inclusion
estimators do validate their numeric domains and fail with an error on
any out-of-range input, but `estimateSignatureSize` and
`estimateExclusionHits` perform no validation: they accept any input
and return `4 * k` and `1` respectively. -/
theorem estimator_domain_validation :
    (∀ GC : ℝ, (GC < 0 ∨ 1 < GC) → ∃ e, calculateProbHBMM GC = Except.error e) ∧
    (∀ M GC : ℝ, (M < 0 ∨ 1 < M ∨ GC < 0 ∨ 1 < GC) →
      ∃ e, calculateProbHBM M GC = Except.error e) ∧
    (∀ (M GC : ℝ) (k : ℤ), (M < 0 ∨ 1 < M ∨ GC < 0 ∨ 1 < GC ∨ k < 1) →
      ∃ e, calculateProbHKM M GC k = Except.error e) ∧
    (∀ (M GC c : ℝ) (k : ℤ),
      (M < 0 ∨ 1 < M ∨ GC < 0 ∨ 1 < GC ∨ k < 1 ∨ c ≤ 0 ∨ 1 ≤ c) →
      ∃ e, estimateGapSize M GC k c = Except.error e) ∧
    (∀ (tI k : ℤ) (M GC c : ℝ),
      (M < 0 ∨ 1 < M ∨ GC < 0 ∨ 1 < GC ∨ k < 1 ∨ c ≤ 0 ∨ 1 ≤ c) →
      ∃ e, estimateInclusionHits tI M GC k c = Except.error e) ∧
    (∀ k : ℤ, estimateSignatureSize k = 4 * k) ∧
    (∀ (tE k : ℤ) (r : ℝ), estimateExclusionHits tE r k = 1) := by
  refine ⟨?_, ?_, ?_, ?_, ?_, fun _ => rfl, fun _ _ _ => rfl⟩
  · intro GC h
    unfold calculateProbHBMM
    rw [if_pos h]
    exact ⟨_, rfl⟩
  · intro M GC h
    unfold calculateProbHBM
    split_ifs with h1 h2
    any_goals exact ⟨_, rfl⟩
    exfalso; tauto
  · intro M GC k h
    unfold calculateProbHKM
    split_ifs with h1 h2 h3
    any_goals exact ⟨_, rfl⟩
    exfalso; tauto
  · intro M GC c k h
    unfold estimateGapSize
    split_ifs with h1 h2 h3 h4 h5
    any_goals exact ⟨_, rfl⟩
    exfalso; tauto
  · intro tI k M GC c h
    unfold estimateInclusionHits
    split_ifs with h1 h2 h3 h4 h5
    any_goals exact ⟨_, rfl⟩
    exfalso; tauto

/-- Witness for C5 (amended), instantiating every validated function at
a concrete out-of-range input and the two unvalidated ones at concrete
inputs. -/
theorem estimator_domain_validation_witness :
    (∃ e, calculateProbHBMM (-1) = Except.error e) ∧
    (∃ e, calculateProbHBM 2 0 = Except.error e) ∧
    (∃ e, calculateProbHKM 0 0 0 = Except.error e) ∧
    (∃ e, estimateGapSize 0 0 1 2 = Except.error e) ∧
    (∃ e, estimateInclusionHits 5 0 0 0 (1 / 2) = Except.error e) ∧
    estimateSignatureSize 7 = 28 ∧ estimateExclusionHits 0 0 5 = 1 := by
  refine ⟨estimator_domain_validation.1 (-1) (Or.inl (by norm_num)),
    estimator_domain_validation.2.1 2 0 (Or.inr (Or.inl (by norm_num))),
    estimator_domain_validation.2.2.1 0 0 0
      (Or.inr (Or.inr (Or.inr (Or.inr (by norm_num))))),
    estimator_domain_validation.2.2.2.1 0 0 2 1
      (Or.inr (Or.inr (Or.inr (Or.inr (Or.inr (Or.inr (by norm_num))))))),
    estimator_domain_validation.2.2.2.2.1 5 0 0 0 (1 / 2)
      (Or.inr (Or.inr (Or.inr (Or.inr (Or.inl (by norm_num)))))),
    estimator_domain_validation.2.2.2.2.2.1 7,
    estimator_domain_validation.2.2.2.2.2.2 0 5 0⟩

/-- C6: `estimateExclusionHits` returns the constant `1` for every
combination of inputs; the inputs have no effect on the result. -/
theorem estimateExclusionHits_constant_one :
    ∀ (totalExclusion : ℤ) (rate : ℝ) (kmerSize : ℤ),
      estimateExclusionHits totalExclusion rate kmerSize = 1 :=
  fun _ _ _ => rfl

/-- C7 (counterexample): the claim says `estimateInclusionHits` returns
a value `≥ 0` for every non-negative `totalInclusion`, but at the
non-negative input `totalInclusion = 0` (with in-domain `M = 1/2`,
`GC = 1/2`, `k = 1`, `confidence = 3/4`) the binomial variance
`(N-1)*p*q = -2/9` is negative and the function fails at the square
root instead of returning a value. -/
theorem estimateInclusionHits_errors_at_zero :
    estimateInclusionHits 0 (1 / 2) (1 / 2) 1 (3 / 4) =
      Except.error "math domain error" := by
  have hv : inclVariance 0 (1 / 2) (1 / 2) 1 < 0 := by
    unfold inclVariance probHKMval probHBMval probHBMMval
    norm_num [Real.rpow_one]
  unfold estimateInclusionHits
  rw [if_neg (by norm_num), if_neg (by norm_num), if_neg (by norm_num),
    if_neg (by norm_num), if_pos hv]

/-- C7 (amended): whenever `estimateInclusionHits` does return a value,
that value is non-negative (the result is `max(0, ...)`); the function
is however not total on the non-negative integers — at
`totalInclusion = 0` the negative binomial variance makes it fail
instead (see the counterexample). -/
theorem estimateInclusionHits_nonneg (tI : ℤ) (M GC : ℝ) (k : ℤ) (c : ℝ) (v : ℝ)
    (h : estimateInclusionHits tI M GC k c = Except.ok v) : 0 ≤ v := by
  unfold estimateInclusionHits at h
  split_ifs at h
  have hv := Except.ok.inj h
  rw [← hv]
  exact le_max_left 0 _

/-- Witness for C7 (amended): at `totalInclusion = 1` the variance is
`0`, the square root succeeds, and the returned value is `1 ≥ 0`. -/
theorem estimateInclusionHits_nonneg_witness :
    estimateInclusionHits 1 (1 / 2) (1 / 2) 1 (3 / 4) = Except.ok 1 ∧
    (0 : ℝ) ≤ 1 := by
  have hv : inclVariance 1 (1 / 2) (1 / 2) 1 = 0 := by
    unfold inclVariance
    norm_num
  have h : estimateInclusionHits 1 (1 / 2) (1 / 2) 1 (3 / 4) = Except.ok 1 := by
    unfold estimateInclusionHits
    rw [if_neg (by norm_num), if_neg (by norm_num), if_neg (by norm_num),
      if_neg (by norm_num), if_neg (by rw [hv]; norm_num)]
    rw [hv, Real.sqrt_zero, mul_zero]
    norm_num
  exact ⟨h, estimateInclusionHits_nonneg 1 (1 / 2) (1 / 2) 1 (3 / 4) 1 h⟩

/-! ### Claims about the k-mer classifier -/

theorem updated_isSome (d : String → Option ℤ) (km ak : String) (v : ℤ) (th : ℚ) :
    (((if th ≤ (v : ℚ) then updateDict d ak v else d) km).isSome) ↔
      ((d km).isSome ∨ (km = ak ∧ th ≤ (v : ℚ))) := by
  split_ifs with h
  · unfold updateDict
    by_cases he : km = ak
    · simp [he, h]
    · simp [he]
  · simp [h]

theorem buildKMersAux_isSome (inh exh : ℚ) :
    ∀ (t : List (String × ℤ × ℤ)) (inm exm : String → Option ℤ) (km : String),
    (((buildKMersAux inh exh t inm exm).1 km).isSome ↔
      ((inm km).isSome ∨ ∃ ic ec : ℤ, (km, ic, ec) ∈ t ∧ inh ≤ (ic : ℚ))) ∧
    (((buildKMersAux inh exh t inm exm).2 km).isSome ↔
      ((exm km).isSome ∨ ∃ ic ec : ℤ, (km, ic, ec) ∈ t ∧ exh ≤ (ec : ℚ))) := by
  intro t
  induction t with
  | nil =>
    intro inm exm km
    constructor <;> simp [buildKMersAux]
  | cons a rest ih =>
    obtain ⟨ak, ai, ae⟩ := a
    intro inm exm km
    have h1 := ih (if inh ≤ (ai : ℚ) then updateDict inm ak ai else inm)
      (if exh ≤ (ae : ℚ) then updateDict exm ak ae else exm) km
    constructor
    · simp only [buildKMersAux]
      rw [h1.1, updated_isSome]
      constructor
      · rintro ((h | ⟨heq, hle⟩) | ⟨ic, ec, hm, hle⟩)
        · exact Or.inl h
        · exact Or.inr ⟨ai, ae, by rw [heq]; exact List.mem_cons_self _ _, hle⟩
        · exact Or.inr ⟨ic, ec, List.mem_cons_of_mem _ hm, hle⟩
      · rintro (h | ⟨ic, ec, hm, hle⟩)
        · exact Or.inl (Or.inl h)
        · rcases List.mem_cons.mp hm with heq | hm2
          · simp only [Prod.mk.injEq] at heq
            obtain ⟨rfl, rfl, rfl⟩ := heq
            exact Or.inl (Or.inr ⟨rfl, hle⟩)
          · exact Or.inr ⟨ic, ec, hm2, hle⟩
    · simp only [buildKMersAux]
      rw [h1.2, updated_isSome]
      constructor
      · rintro ((h | ⟨heq, hle⟩) | ⟨ic, ec, hm, hle⟩)
        · exact Or.inl h
        · exact Or.inr ⟨ai, ae, by rw [heq]; exact List.mem_cons_self _ _, hle⟩
        · exact Or.inr ⟨ic, ec, List.mem_cons_of_mem _ hm, hle⟩
      · rintro (h | ⟨ic, ec, hm, hle⟩)
        · exact Or.inl (Or.inl h)
        · rcases List.mem_cons.mp hm with heq | hm2
          · simp only [Prod.mk.injEq] at heq
            obtain ⟨rfl, rfl, rfl⟩ := heq
            exact Or.inl (Or.inr ⟨rfl, hle⟩)
          · exact Or.inr ⟨ic, ec, hm2, hle⟩

/-- C9: `buildKMers` produces exactly
`InclusionSet = {kmer : inclusionCount(kmer) ≥ inhits}` and
`ExclusionSet = {kmer : exclusionCount(kmer) ≥ exhits}`, and a k-mer
whose counts meet both thresholds is placed in both sets, with no
deduplication or conflict resolution. -/
theorem buildKMers_membership (table : List (String × ℤ × ℤ)) (inhits exhits : ℚ)
    (km : String) :
    (((buildKMers table inhits exhits).1 km).isSome ↔
      ∃ ic ec : ℤ, (km, ic, ec) ∈ table ∧ inhits ≤ (ic : ℚ)) ∧
    (((buildKMers table inhits exhits).2 km).isSome ↔
      ∃ ic ec : ℤ, (km, ic, ec) ∈ table ∧ exhits ≤ (ec : ℚ)) ∧
    (∀ ic ec : ℤ, (km, ic, ec) ∈ table → inhits ≤ (ic : ℚ) → exhits ≤ (ec : ℚ) →
      ((buildKMers table inhits exhits).1 km).isSome ∧
        ((buildKMers table inhits exhits).2 km).isSome) := by
  have h := buildKMersAux_isSome inhits exhits table (fun _ => none) (fun _ => none) km
  unfold buildKMers
  refine ⟨?_, ?_, ?_⟩
  · rw [h.1]; simp
  · rw [h.2]; simp
  · intro ic ec hm hin hex
    exact ⟨by rw [h.1]; exact Or.inr ⟨ic, ec, hm, hin⟩,
      by rw [h.2]; exact Or.inr ⟨ic, ec, hm, hex⟩⟩

/-- Witness for C9: a one-line table whose k-mer meets both thresholds
lands in both dictionaries. -/
theorem buildKMers_membership_witness :
    ("AA", (3 : ℤ), (2 : ℤ)) ∈ [("AA", (3 : ℤ), (2 : ℤ))] ∧
    (2 : ℚ) ≤ ((3 : ℤ) : ℚ) ∧ (1 : ℚ) ≤ ((2 : ℤ) : ℚ) ∧
    (((buildKMers [("AA", 3, 2)] 2 1).1 "AA").isSome ∧
      ((buildKMers [("AA", 3, 2)] 2 1).2 "AA").isSome) := by
  have hm : ("AA", (3 : ℤ), (2 : ℤ)) ∈ [("AA", (3 : ℤ), (2 : ℤ))] :=
    List.mem_singleton.mpr rfl
  have h1 : (2 : ℚ) ≤ ((3 : ℤ) : ℚ) := by norm_num
  have h2 : (1 : ℚ) ≤ ((2 : ℤ) : ℚ) := by norm_num
  exact ⟨hm, h1, h2,
    (buildKMers_membership [("AA", 3, 2)] 2 1 "AA").2.2 3 2 hm h1 h2⟩

end Neptune
